import Mathlib

/-!
Verification development for the ZANJ archive loading subsystem
(`muutils/zanj/loading.py`).

The Python source is shallowly embedded: JSON documents become the inductive
type `JSONValue`, loaded Python runtime values become `PyObj`, numpy arrays
become `NpArray` (dtype, shape, flat row-major data, integer dtypes), and
fallible Python code returns `Except PyErr`.  Machine integers are modelled
as `Int`/`Nat` with explicit `% 2^w` where two's-complement wrap matters.
-/

set_option maxRecDepth 4000

/-- Abstraction of the Python exceptions raised by the loading code.
`keyTypeMismatch` stands for the `KeyError` raised with the
"invalid key type" message at `ZANJLoaderTreeNode.__getitem__`
(loading.py:131), distinguishable from an ordinary container-miss
`keyError`. -/
inductive PyErr where
  | keyTypeMismatch
  | keyError (k : String)
  | indexError
  | typeError (msg : String)
  | valueError (msg : String)
  | attributeError (attr : String)
  | nameError (n : String)
deriving DecidableEq, Repr

/-- JSON documents, as produced by `json.load` / `json.loads`.  Numbers are
restricted to integers (the loading code under verification only manipulates
integral payloads; float payloads are not shallowly embeddable). -/
inductive JSONValue where
  | null
  | bool (b : Bool)
  | num (n : Int)
  | str (s : String)
  | arr (xs : List JSONValue)
  | obj (kvs : List (String × JSONValue))

/-- Integer numpy dtype: signedness plus item size in bytes
(`int8 ... int64, uint8 ... uint64`). -/
structure Dtype where
  signed : Bool
  itemsize : Nat
deriving DecidableEq, Repr

/-- A numpy array value: dtype, shape, and the flat row-major data.
Two arrays are equal iff dtype, shape and data agree. -/
structure NpArray where
  dtype : Dtype
  shape : List Nat
  data : List Int
deriving DecidableEq, Repr

/-- Python runtime values that the loader produces: parsed JSON data
(dicts, lists, scalars, `None` as `.null`) or numpy arrays. -/
inductive PyObj where
  | json (j : JSONValue)
  | nparr (a : NpArray)

/-- Association-list lookup with string keys: Python `dict[key]` membership
and retrieval on the (insertion-ordered) dicts of the embedding. -/
def assocFind (l : List (String × α)) (k : String) : Option α :=
  match l with
  | [] => none
  | (k2, v) :: rest => if k2 = k then some v else assocFind rest k

/-- Sequential effectful map, aborting at the first failure: the
evaluation order of a Python list comprehension or `for` loop whose body
may raise. -/
def mapExcept (f : α → Except PyErr β) : List α → Except PyErr (List β)
  | [] => .ok []
  | a :: l =>
    match f a with
    | .error e => .error e
    | .ok b => (mapExcept f l).map (fun bs => b :: bs)

/-- `json_item[k]` on a parsed-JSON value: `KeyError` on a missing key,
`TypeError` when the value is not a dict. -/
def pyGetKeyJ (j : JSONValue) (k : String) : Except PyErr JSONValue :=
  match j with
  | .obj kvs =>
    match assocFind kvs k with
    | some v => .ok v
    | none => .error (.keyError k)
  | _ => .error (.typeError ("value is not subscriptable by string key"))

/-- The mapping from dtype strings (as they appear in the JSON `dtype`
field and are fed to `np.dtype`) to the integer dtypes of the model. -/
def dtypeTable : List (String × Dtype) :=
  [ ("int8", ⟨true, 1⟩), ("int16", ⟨true, 2⟩),
    ("int32", ⟨true, 4⟩), ("int64", ⟨true, 8⟩),
    ("uint8", ⟨false, 1⟩), ("uint16", ⟨false, 2⟩),
    ("uint32", ⟨false, 4⟩), ("uint64", ⟨false, 8⟩) ]

/-- `np.dtype(s)` for the integer dtype strings of the model; unknown
strings have no entry (numpy would raise `TypeError`). -/
def dtypeFromString (s : String) : Option Dtype :=
  assocFind dtypeTable s

/-- Number of value bits of a dtype. -/
def dtypeBits (d : Dtype) : Nat := 8 * d.itemsize

/-- Whether an integer is representable in a dtype
(two's complement for signed dtypes). -/
def inRangeB (d : Dtype) (v : Int) : Bool :=
  if d.signed then
    decide (-(2 ^ (dtypeBits d - 1) : Int) ≤ v) && decide (v < (2 ^ (dtypeBits d - 1) : Int))
  else
    decide ((0 : Int) ≤ v) && decide (v < (2 ^ dtypeBits d : Int))

/-- Little-endian fixed-width byte serialization of a natural number:
`k` bytes, least significant first. -/
def toLEBytes : Nat → Nat → List Nat
  | 0, _ => []
  | k + 1, n => n % 256 :: toLEBytes k (n / 256)

/-- Little-endian byte deserialization. -/
def fromLEBytes (bs : List Nat) : Nat :=
  bs.foldr (fun b acc => b + 256 * acc) 0

/-- Raw bytes of one value in a dtype: the two's-complement residue
`v mod 2^bits`, serialized little-endian (native byte order of the
platforms this archive format targets). -/
def encodeValue (d : Dtype) (v : Int) : List Nat :=
  toLEBytes d.itemsize ((v % (2 ^ dtypeBits d)).toNat)

/-- Reinterpret one `itemsize`-byte chunk as an integer of the dtype
(two's complement for signed dtypes).  This is what `np.frombuffer`
does per element. -/
def decodeChunk (d : Dtype) (bs : List Nat) : Int :=
  let n := fromLEBytes bs
  if d.signed = true ∧ 2 ^ (dtypeBits d - 1) ≤ n then
    (n : Int) - 2 ^ dtypeBits d
  else
    (n : Int)

/-- Fuel-driven exact chunking of a flat byte list into groups of `k`. -/
def chunksAux : Nat → Nat → List Nat → List (List Nat)
  | 0, _, _ => []
  | _ + 1, _, [] => []
  | fuel + 1, k, l => l.take k :: chunksAux fuel k (l.drop k)

/-- Chunk a byte list into consecutive groups of `k` bytes. -/
def npChunks (k : Nat) (l : List Nat) : List (List Nat) :=
  chunksAux l.length k l

/-- `np.frombuffer(buf, dtype)`: requires the buffer length to be a
multiple of the item size, then reinterprets each `itemsize`-byte group. -/
def npFrombuffer (d : Dtype) (bs : List Nat) : Except PyErr (List Int) :=
  if d.itemsize = 0 then .error (.valueError ("itemsize 0"))
  else if bs.length % d.itemsize = 0 then
    .ok ((npChunks d.itemsize bs).map (decodeChunk d))
  else .error (.valueError ("buffer size must be a multiple of element size"))

/-- `np.array(list_of_ints, dtype)`: the identity on in-range integers;
out-of-range Python ints make numpy raise (`OverflowError`). -/
def npArrayCast (nums : List Int) (d : Dtype) : Except PyErr (List Int) :=
  if nums.all (inRangeB d) then .ok nums
  else .error (.valueError ("Python int out of bounds for dtype"))

/-- `arr.reshape(shape)` on a flat array: succeeds exactly when the shape
product matches the element count (the `-1`-inference feature of numpy is
not exercised by this loader's payloads and is not modelled). -/
def npReshape (d : Dtype) (shape : List Nat) (flat : List Int) : Except PyErr NpArray :=
  if shape.prod = flat.length then .ok ⟨d, shape, flat⟩
  else .error (.valueError ("cannot reshape array"))

/-- Extract a flat list of integers from a JSON array of numbers
(the `data` payload of a list-encoded tagged array). -/
def jsonToIntList (j : JSONValue) : Except PyErr (List Int) :=
  match j with
  | .arr xs =>
    mapExcept (fun x =>
      match x with
      | .num n => Except.ok n
      | _ => Except.error (.valueError ("non-numeric array payload"))) xs
  | _ => .error (.valueError ("array payload is not a sequence"))

/-- Extract a shape (list of nonnegative dimension sizes) from a JSON
array of numbers. -/
def jsonToShape (j : JSONValue) : Except PyErr (List Nat) :=
  match j with
  | .arr xs =>
    mapExcept (fun x =>
      match x with
      | .num n => if 0 ≤ n then Except.ok n.toNat else Except.error (.valueError ("negative dimension"))
      | _ => Except.error (.valueError ("non-numeric shape entry"))) xs
  | _ => .error (.valueError ("shape is not a sequence"))

/-- Hex digit characters, lowercase (as produced by Python `bytes.hex`):
code point 48 + n for a decimal digit, 87 + n for `a`-`f`. -/
def hexChar (n : Nat) : Char :=
  if n < 10 then Char.ofNat (48 + n) else Char.ofNat (87 + n)

/-- Value of a hex digit character (both cases, as accepted by
`bytes.fromhex`), read off the code point. -/
def hexVal (c : Char) : Option Nat :=
  if 48 ≤ c.toNat ∧ c.toNat ≤ 57 then some (c.toNat - 48)
  else if 97 ≤ c.toNat ∧ c.toNat ≤ 102 then some (c.toNat - 87)
  else if 65 ≤ c.toNat ∧ c.toNat ≤ 70 then some (c.toNat - 55)
  else none

/-- Two hex characters of one byte, most significant nibble first. -/
def byteToHexChars (b : Nat) : List Char :=
  [hexChar (b / 16), hexChar (b % 16)]

/-- `bytes.hex()`: lowercase hex string of a byte sequence. -/
def bytesToHexString (bs : List Nat) : String :=
  String.mk ((bs.map byteToHexChars).flatten)

/-- `bytes.fromhex` on the character list of a hex string: pairs of hex
digits, `ValueError` on an odd length or a non-hex character (the
whitespace tolerance of `bytes.fromhex` is not exercised by hex payloads
and is not modelled). -/
def bytesFromHex : List Char → Except PyErr (List Nat)
  | [] => .ok []
  | [_] => .error (.valueError ("non-hexadecimal number found in fromhex arg"))
  | c1 :: c2 :: rest =>
    match hexVal c1, hexVal c2 with
    | some hi, some lo => (bytesFromHex rest).map (fun bs => (16 * hi + lo) :: bs)
    | _, _ => .error (.valueError ("non-hexadecimal number found in fromhex arg"))

/-- The `array_list_meta` loader of `DEFAULT_LOADER_HANDLERS`
(loading.py:75-77): `np.array(json_item["data"],
dtype=json_item["dtype"]).reshape(json_item["shape"])`. -/
def loadArrayListMeta (j : JSONValue) : Except PyErr NpArray := do
  let dataJ ← pyGetKeyJ j "data"
  let dtypeJ ← pyGetKeyJ j "dtype"
  let ds ← match dtypeJ with
    | .str s => Except.ok s
    | _ => Except.error (.typeError ("dtype field is not a string"))
  let d ← match dtypeFromString ds with
    | some d => Except.ok d
    | none => Except.error (.typeError ("data type not understood"))
  let nums ← jsonToIntList dataJ
  let casted ← npArrayCast nums d
  let shapeJ ← pyGetKeyJ j "shape"
  let shape ← jsonToShape shapeJ
  npReshape d shape casted

/-- The `array_hex_meta` loader of `DEFAULT_LOADER_HANDLERS`
(loading.py:86-88): `np.frombuffer(bytes.fromhex(json_item["data"]),
dtype=json_item["dtype"]).reshape(json_item["shape"])`. -/
def loadArrayHexMeta (j : JSONValue) : Except PyErr NpArray := do
  let dataJ ← pyGetKeyJ j "data"
  let hs ← match dataJ with
    | .str s => Except.ok s
    | _ => Except.error (.typeError ("fromhex expects a string"))
  let bs ← bytesFromHex hs.data
  let dtypeJ ← pyGetKeyJ j "dtype"
  let ds ← match dtypeJ with
    | .str s => Except.ok s
    | _ => Except.error (.typeError ("dtype field is not a string"))
  let d ← match dtypeFromString ds with
    | some d => Except.ok d
    | none => Except.error (.typeError ("data type not understood"))
  let flat ← npFrombuffer d bs
  let shapeJ ← pyGetKeyJ j "shape"
  let shape ← jsonToShape shapeJ
  npReshape d shape flat

/-- A list-encoded tagged array (`__format__ = "array_list_meta"`) for a
dtype string, shape and flat data. -/
def mkArrayListItem (ds : String) (shape : List Nat) (data : List Int) : JSONValue :=
  .obj [ ("__format__", .str "array_list_meta"),
         ("dtype", .str ds),
         ("shape", .arr (shape.map (fun n => .num (Int.ofNat n)))),
         ("data", .arr (data.map .num)) ]

/-- A hex-encoded tagged array (`__format__ = "array_hex_meta"`) carrying
the same values' raw bytes in the dtype, hex-encoded. -/
def mkArrayHexItem (ds : String) (d : Dtype) (shape : List Nat) (data : List Int) : JSONValue :=
  .obj [ ("__format__", .str "array_hex_meta"),
         ("dtype", .str ds),
         ("shape", .arr (shape.map (fun n => .num (Int.ofNat n)))),
         ("data", .str (bytesToHexString ((data.map (encodeValue d)).flatten))) ]

/-- Whitespace characters that `json.loads` skips around documents. -/
def isWS (c : Char) : Bool :=
  c = ' ' || c = '\t' || c = '\n' || c = '\r'

/-- Drop leading JSON whitespace. -/
def skipWS (cs : List Char) : List Char :=
  cs.dropWhile isWS

/-- Strip JSON whitespace from both ends of a character stream. -/
def stripWSBoth (cs : List Char) : List Char :=
  ((cs.dropWhile isWS).reverse.dropWhile isWS).reverse

/-- Single-character string escapes of JSON (`\uXXXX` escapes are not
exercised by the payloads under verification and are not modelled). -/
def escChar (c : Char) : Option Char :=
  match c with
  | '"' => some '"'
  | '\\' => some '\\'
  | '/' => some '/'
  | 'n' => some '\n'
  | 't' => some '\t'
  | 'r' => some '\r'
  | 'b' => some (Char.ofNat 8)
  | 'f' => some (Char.ofNat 12)
  | _ => none

/-- Parse the body of a JSON string literal (after the opening quote),
returning the decoded characters and the remainder after the closing
quote. -/
def parseStrAux : List Char → Option (List Char × List Char)
  | [] => none
  | '"' :: rest => some ([], rest)
  | '\\' :: c :: rest =>
    match escChar c with
    | some e => (parseStrAux rest).map (fun p => (e :: p.1, p.2))
    | none => none
  | c :: rest => (parseStrAux rest).map (fun p => (c :: p.1, p.2))

/-- Consume leading decimal digits, accumulating their value. -/
def parseDigitsAux : List Char → Nat → Nat × List Char
  | [], acc => (acc, [])
  | c :: rest, acc =>
    if c.isDigit then parseDigitsAux rest (10 * acc + (c.toNat - 48))
    else (acc, c :: rest)

/-- Parse a nonempty run of decimal digits. -/
def parseDigits (cs : List Char) : Option (Nat × List Char) :=
  match cs with
  | c :: rest => if c.isDigit then some (parseDigitsAux rest (c.toNat - 48)) else none
  | [] => none

/-- Strip a fixed keyword from the head of the stream, when present. -/
def dropLit (lit cs : List Char) : Option (List Char) :=
  if lit.isPrefixOf cs then some (cs.drop lit.length) else none

mutual

/-- Fuel-driven recursive-descent parser for one JSON value (the integer
subset of JSON: null, booleans, integers, strings, arrays, objects),
mirroring what `json.loads` accepts on the loader's documents. -/
def parseValueCore : Nat → List Char → Option (JSONValue × List Char)
  | 0, _ => none
  | fuel + 1, cs =>
    let t := skipWS cs
    match dropLit (String.data "null") t with
    | some rest => some (.null, rest)
    | none =>
    match dropLit (String.data "true") t with
    | some rest => some (.bool true, rest)
    | none =>
    match dropLit (String.data "false") t with
    | some rest => some (.bool false, rest)
    | none =>
    match t with
    | '"' :: rest => (parseStrAux rest).map (fun p => (.str (String.mk p.1), p.2))
    | '[' :: rest =>
      (match skipWS rest with
       | ']' :: r2 => some (.arr [], r2)
       | _ => (parseElemsCore fuel rest).map (fun p => (.arr p.1, p.2)))
    | '\x7b' :: rest =>
      (match skipWS rest with
       | '\x7d' :: r2 => some (.obj [], r2)
       | _ => (parseMembersCore fuel rest).map (fun p => (.obj p.1, p.2)))
    | '-' :: rest =>
      (match parseDigits rest with
       | some p => some (.num (-(p.1 : Int)), p.2)
       | none => none)
    | c :: rest =>
      if c.isDigit then
        (parseDigits (c :: rest)).map (fun p => (.num (p.1 : Int), p.2))
      else none
    | [] => none

/-- Parse the elements of a JSON array after the opening bracket (or a
comma), up to and including the closing bracket. -/
def parseElemsCore : Nat → List Char → Option (List JSONValue × List Char)
  | 0, _ => none
  | fuel + 1, cs => do
    let (v, r1) ← parseValueCore fuel cs
    match skipWS r1 with
    | ',' :: r2 => (parseElemsCore fuel r2).map (fun p => (v :: p.1, p.2))
    | ']' :: r2 => some ([v], r2)
    | _ => none

/-- Parse the members of a JSON object after the opening brace (or a
comma), up to and including the closing brace. -/
def parseMembersCore : Nat → List Char → Option (List (String × JSONValue) × List Char)
  | 0, _ => none
  | fuel + 1, cs =>
    match skipWS cs with
    | '"' :: r1 =>
      (match parseStrAux r1 with
       | some (kcs, r2) =>
         (match skipWS r2 with
          | ':' :: r3 => do
            let (v, r4) ← parseValueCore fuel r3
            (match skipWS r4 with
             | ',' :: r5 => (parseMembersCore fuel r5).map (fun p => ((String.mk kcs, v) :: p.1, p.2))
             | '\x7d' :: r5 => some ([(String.mk kcs, v)], r5)
             | _ => none)
          | _ => none)
       | none => none)
    | _ => none

end

/-- `json.loads` on a character stream: strips surrounding whitespace,
parses exactly one JSON value, and rejects trailing non-whitespace
("Extra data"); `ValueError` (`json.JSONDecodeError`) on malformed
input. -/
def json_loads (cs : List Char) : Except PyErr JSONValue :=
  let t := stripWSBoth cs
  match parseValueCore (t.length + 1) t with
  | some (v, rest) =>
    if (skipWS rest).isEmpty then .ok v else .error (.valueError ("Extra data"))
  | none => .error (.valueError ("Expecting value"))

/-- Iteration over a Python file object: each yielded chunk ends at (and
includes) a newline; a final fragment without a trailing newline is
yielded as-is; an empty stream yields nothing. -/
def fileLinesAux : List Char → List Char → List (List Char)
  | acc, [] => if acc.isEmpty then [] else [acc.reverse]
  | acc, c :: cs =>
    if c = '\n' then (acc.reverse ++ ['\n']) :: fileLinesAux [] cs
    else fileLinesAux (c :: acc) cs

/-- The lines yielded by iterating a file stream (`for line in fp`). -/
def fileLines (cs : List Char) : List (List Char) :=
  fileLinesAux [] cs

/-- `load_jsonl` (loading.py:26-30): `[json.loads(line) for line in fp]` —
each yielded line parsed independently, materialized fully into a list,
raising on the first malformed line. -/
def load_jsonl (stream : List Char) : Except PyErr (List JSONValue) :=
  mapExcept json_loads (fileLines stream)

/-- A key used to subscript a proxy-tree node: a string (mapping access)
or an integer (sequence index). -/
inductive PyKey where
  | str (s : String)
  | int (i : Int)

/-- `ZANJLoaderTreeNode` (loading.py:113-148): a view over a raw subtree
plus the owning archive's externals store, reached through `_parent`.
The only loading mode able to construct nodes stores its externals in a
plain dict, embedded here as the association list `_parent_externals`. -/
structure ZANJLoaderTreeNode where
  _parent_externals : List (String × PyObj)
  _data : JSONValue

/-- Result of subscripting a proxy node: a new node wrapping a container,
or a leaf value. -/
inductive GetResult where
  | node (t : ZANJLoaderTreeNode)
  | leaf (o : PyObj)

/-- Python list subscripting `xs[i]`: negative indices count from the
end; out-of-range raises `IndexError`. -/
def pyListGet (xs : List JSONValue) (i : Int) : Except PyErr JSONValue :=
  let j := if i < 0 then i + xs.length else i
  if 0 ≤ j then
    match xs[j.toNat]? with
    | some v => .ok v
    | none => .error .indexError
  else .error .indexError

/-- Python dict subscripting `kvs[s]`: `KeyError` when absent. -/
def pyDictGet (kvs : List (String × JSONValue)) (s : String) : Except PyErr JSONValue :=
  match assocFind kvs s with
  | some v => .ok v
  | none => .error (.keyError s)

/-- `self._parent._externals[val]` in full mode: a dict lookup keyed by
external-key strings; a list or dict subscript is unhashable
(`TypeError`), any other non-string key is simply absent (`KeyError`). -/
def externalsGet (es : List (String × PyObj)) (val : JSONValue) : Except PyErr PyObj :=
  match val with
  | .str s =>
    match assocFind es s with
    | some o => .ok o
    | none => .error (.keyError s)
  | .arr _ => .error (.typeError ("unhashable type: list"))
  | .obj _ => .error (.typeError ("unhashable type: dict"))
  | _ => .error (.keyError ("non-string external key"))

/-- loading.py:139-142: a dict or list value is wrapped in a new
`ZANJLoaderTreeNode` sharing the same back-reference; anything else is
returned as a leaf. -/
def wrapVal (es : List (String × PyObj)) (o : PyObj) : GetResult :=
  match o with
  | .json (.obj kvs) => .node ⟨es, .obj kvs⟩
  | .json (.arr xs) => .node ⟨es, .arr xs⟩
  | o => .leaf o

/-- `ZANJLoaderTreeNode.__getitem__` (loading.py:122-142): key-kind check
and raw fetch; dereference through the parent's externals exactly when
the key is the string `"$ref"`; wrap containers, return leaves. -/
def ZANJLoaderTreeNode.getitem (t : ZANJLoaderTreeNode) (key : PyKey) : Except PyErr GetResult :=
  let fetch : Except PyErr JSONValue :=
    match t._data, key with
    | .arr xs, .int i => pyListGet xs i
    | .obj kvs, .str s => pyDictGet kvs s
    | _, _ => .error .keyTypeMismatch
  match fetch with
  | .error e => .error e
  | .ok val =>
    let deref : Except PyErr PyObj :=
      match key with
      | .str s => if s = "$ref" then externalsGet t._parent_externals val else .ok (.json val)
      | .int _ => .ok (.json val)
    match deref with
    | .error e => .error e
    | .ok v2 => .ok (wrapVal t._parent_externals v2)

/-- `ZANJLoaderTreeNode.__iter__` (loading.py:144-145): `iter(self._data)` —
the raw keys of a dict (no filtering, no dereferencing), the raw elements
of a list; a scalar is not iterable. -/
def ZANJLoaderTreeNode.iterModel (t : ZANJLoaderTreeNode) : Except PyErr (List JSONValue) :=
  match t._data with
  | .obj kvs => .ok (kvs.map (fun kv => .str kv.1))
  | .arr xs => .ok xs
  | _ => .error (.typeError ("object is not iterable"))

/-- `ZANJLoaderTreeNode.__len__` (loading.py:147-148): `len(self._data)`. -/
def ZANJLoaderTreeNode.lenModel (t : ZANJLoaderTreeNode) : Except PyErr Nat :=
  match t._data with
  | .obj kvs => .ok kvs.length
  | .arr xs => .ok xs.length
  | _ => .error (.typeError ("object has no len"))

/-- The path from the archive root to a value, as handlers receive it. -/
abbrev ObjectPath := List PyKey

/-- `LoaderHandler` (loading.py:38-46). -/
structure LoaderHandler where
  check : JSONValue → ObjectPath → Bool
  load : JSONValue → ObjectPath → Except PyErr PyObj
  desc : String

/-- The state of a ZANJ archive object that handlers receive: its
externals store. -/
structure Zanj where
  _externals : List (String × PyObj)

/-- `ZANJLoaderHandler` (loading.py:48-57). -/
structure ZANJLoaderHandler where
  check : Zanj → JSONValue → ObjectPath → Bool
  load : Zanj → JSONValue → ObjectPath → Except PyErr PyObj
  desc : String

/-- `ZANJLoaderHandler.from_LoaderHandler` (loading.py:59-66): wrap a
plain handler, ignoring the archive argument. -/
def ZANJLoaderHandler.fromLoaderHandler (lh : LoaderHandler) : ZANJLoaderHandler :=
  { check := fun _z j p => lh.check j p,
    load := fun _z j p => lh.load j p,
    desc := lh.desc }

/-- Predicate of the `array_list_meta` handler (loading.py:70-74): a dict
with a `__format__` field equal to the string `"array_list_meta"`
(Python `==` against a non-string is `False`). -/
def checkArrayListMeta (j : JSONValue) (_p : ObjectPath) : Bool :=
  match j with
  | .obj kvs =>
    match assocFind kvs "__format__" with
    | some (.str s) => s = "array_list_meta"
    | _ => false
  | _ => false

/-- Predicate of the `array_hex_meta` handler (loading.py:81-85). -/
def checkArrayHexMeta (j : JSONValue) (_p : ObjectPath) : Bool :=
  match j with
  | .obj kvs =>
    match assocFind kvs "__format__" with
    | some (.str s) => s = "array_hex_meta"
    | _ => false
  | _ => false

/-- `DEFAULT_LOADER_HANDLERS` (loading.py:68-91): the list-encoded array
handler followed by the hex-encoded array handler. -/
def DEFAULT_LOADER_HANDLERS : List LoaderHandler :=
  [ { check := checkArrayListMeta,
      load := fun j _p => (loadArrayListMeta j).map .nparr,
      desc := "array_list_meta loader" },
    { check := checkArrayHexMeta,
      load := fun j _p => (loadArrayHexMeta j).map .nparr,
      desc := "array_hex_meta loader" } ]

/-- Predicate of the reference-token handler (loading.py:96-100): a dict
whose `__format__` field is a string starting with `"external:"`
(the Python code would raise `AttributeError` on a non-string
`__format__`; such a value is never accepted either way). -/
def checkExternalFormat (_z : Zanj) (j : JSONValue) (_p : ObjectPath) : Bool :=
  match j with
  | .obj kvs =>
    match assocFind kvs "__format__" with
    | some (.str s) => List.isPrefixOf ("external:".data) s.data
    | _ => false
  | _ => false

/-- Loader of the reference-token handler (loading.py:101-103):
`zanj._externals[json_item["key"]]`. -/
def loadExternalRef (z : Zanj) (j : JSONValue) (_p : ObjectPath) : Except PyErr PyObj :=
  match pyGetKeyJ j "key" with
  | .error e => .error e
  | .ok kv => externalsGet z._externals kv

/-- The reference-token handler of the default ZANJ chain
(loading.py:95-104); its `desc` is left at the dataclass default. -/
def zanjExternalHandler : ZANJLoaderHandler :=
  { check := checkExternalFormat,
    load := loadExternalRef,
    desc := "(no description)" }

/-- `DEFAULT_LOADER_HANDLERS_ZANJ` (loading.py:94-108): the
reference-token handler first, then the wrapped default array handlers. -/
def DEFAULT_LOADER_HANDLERS_ZANJ : List ZANJLoaderHandler :=
  zanjExternalHandler :: (DEFAULT_LOADER_HANDLERS.map ZANJLoaderHandler.fromLoaderHandler)

/-- Modelled from the spec: `HandlerRegistry.resolve` — the sources
declare the handler chain but contain no dispatch routine, so resolution
follows the spec's words: iterate the handlers in order, return the
result of the first whose predicate accepts the value, and return the
value unchanged when no predicate accepts it. -/
def resolveHandlers (handlers : List ZANJLoaderHandler) (z : Zanj) (j : JSONValue)
    (p : ObjectPath) : Except PyErr PyObj :=
  match handlers.find? (fun h => h.check z j p) with
  | some h => h.load z j p
  | none => .ok (.json j)

/-- Contents of a zip archive member, as the decode paths see them: a
JSON document, a `.npy` payload, or line-oriented text. -/
inductive Member where
  | jsonDoc (j : JSONValue)
  | npyDoc (a : NpArray)
  | textDoc (s : String)

/-- A zip archive: named members. -/
abbrev Zipf := List (String × Member)

/-- `zipf.namelist()`. -/
def zipNamelist (z : Zipf) : List String :=
  z.map (fun m => m.1)

/-- `zipf.open(name, "r")`: `KeyError` when no member has that name. -/
def zipOpen (z : Zipf) (name : String) : Except PyErr Member :=
  match assocFind z name with
  | some m => .ok m
  | none => .error (.keyError name)

/-- Modelled from the spec: the name of the main-tree control document
(`ZANJ_MAIN` lives in `muutils/zanj/externals.py`, which is not among the
sources; only the role of the constant matters here). -/
def ZANJ_MAIN : String := "__zanj__.json"

/-- Modelled from the spec: the name of the metadata control document
(`ZANJ_META`, also from `muutils/zanj/externals.py`). -/
def ZANJ_META : String := "__zanj_meta__.json"

/-- Modelled from the spec: `EXTERNAL_ITEMS_EXTENSIONS` (from
`muutils/zanj/externals.py`) — the fixed per-type extension table,
`ndarray → npy`, `jsonl → jsonl`. -/
def externalItemsExtension (item_type : String) : Option String :=
  if item_type = "ndarray" then some ("npy")
  else if item_type = "jsonl" then some ("jsonl")
  else none

/-- `json.load` on an opened member stream. -/
def json_load_member (m : Member) : Except PyErr JSONValue :=
  match m with
  | .jsonDoc j => .ok j
  | _ => .error (.valueError ("control document is not valid JSON"))

/-- `load_ndarray` (loading.py:23-24): `np.load(fp)`. -/
def load_ndarray_member (m : Member) : Except PyErr PyObj :=
  match m with
  | .npyDoc a => .ok (.nparr a)
  | _ => .error (.valueError ("failed to interpret member as a npy file"))

/-- `load_jsonl` applied to an opened member stream (loading.py:26-30):
the member's text is split into lines and each is parsed as JSON. -/
def load_jsonl_member (m : Member) : Except PyErr PyObj :=
  match m with
  | .textDoc s => (load_jsonl s.data).map (fun vs => .json (.arr vs))
  | _ => .error (.valueError ("failed to interpret member as jsonl lines"))

/-- `EXTERNAL_LOAD_FUNCS` (loading.py:32-35): the per-item-type decode
table. -/
def externalLoadFuncsLookup (item_type : String) : Option (Member → Except PyErr PyObj) :=
  if item_type = "ndarray" then some load_ndarray_member
  else if item_type = "jsonl" then some load_jsonl_member
  else none

/-- The fields of `LazyExternalLoader` (loading.py:151-175). -/
structure LazyExternalLoaderS where
  _zipf : Zipf
  _externals_types : List (String × String)

/-- Attribute access on a parsed-JSON value: `json.load` produces plain
dicts, lists and scalars, none of which carries an `item_type` (or any
other data) attribute, so `val.item_type` (loading.py:167) raises
`AttributeError` for every JSON value. -/
def pyGetAttrJSON (_v : JSONValue) (attr : String) : Except PyErr String :=
  .error (.attributeError attr)

/-- `LazyExternalLoader.__init__` (loading.py:157-175): build the
`(key, item_type)` table from the metadata via the attribute access
`val.item_type`, then validate that each declared external's backing
member `"<key>.<ext>"` exists in the archive. -/
def LazyExternalLoader.init (zipf : Zipf) (zanj_meta : JSONValue) :
    Except PyErr LazyExternalLoaderS := do
  let einfo ← pyGetKeyJ zanj_meta "externals_info"
  let kvs ← match einfo with
    | .obj kvs => Except.ok kvs
    | _ => Except.error (.attributeError ("items"))
  let types ← mapExcept (fun kv => do
    let it ← pyGetAttrJSON kv.2 "item_type"
    Except.ok (kv.1, it)) kvs
  let _ ← mapExcept (fun kv => do
    let ext ← match externalItemsExtension kv.2 with
      | some e => Except.ok e
      | none => Except.error (.keyError kv.2)
    let fname := kv.1 ++ "." ++ ext
    if (zipNamelist zipf).contains fname then Except.ok ()
    else Except.error (.valueError ("external file " ++ fname ++ " not found in archive"))) types
  Except.ok ⟨zipf, types⟩

/-- `LazyExternalLoader.__getitem__` (loading.py:178-182): for a declared
key, `path, item_type = key` unpacks the key string itself into exactly
two characters (`ValueError` otherwise), the single-character `path` is
opened as a member, the single-character `item_type` is looked up in
`EXTERNAL_LOAD_FUNCS`, and the call then evaluates the free variable
`loaded_zanj` (`NameError`); for an undeclared key the method falls
through and returns `None`. -/
def LazyExternalLoader.getitem (l : LazyExternalLoaderS) (key : String) :
    Except PyErr PyObj :=
  if (assocFind l._externals_types key).isSome then
    match key.data with
    | [c1, c2] =>
      let path := String.mk [c1]
      let item_type := String.mk [c2]
      match zipOpen l._zipf path with
      | .error e => .error e
      | .ok _mem =>
        match externalLoadFuncsLookup item_type with
        | some _f => .error (.nameError ("loaded_zanj"))
        | none => .error (.keyError item_type)
    | _ => .error (.valueError ("values to unpack mismatch"))
  else .ok (.json .null)

/-- The externals-loading mode flag. -/
inductive ExternalsLoadingMode where
  | lazy
  | full

/-- The state of a `LoadedZANJ` after construction: parsed metadata,
parsed main tree, and (in full mode) the eagerly decoded externals dict. -/
structure LoadedZANJS where
  _meta : JSONValue
  _main : JSONValue
  _externals : List (String × PyObj)

/-- `LoadedZANJ.__init__` (loading.py:188-221): open and parse the two
control documents; in lazy mode construct the lazy loader — the call at
loading.py:211-214 omits the constructor's required third argument
`loaded_zanj`, so it raises `TypeError` before `LazyExternalLoader.
__init__` runs; in full mode eagerly decode every entry of
`externals_info`, opening the member named by the bare key
(loading.py:220 uses `fname` — the key — without the per-type
extension). -/
def LoadedZANJ.init (zipf : Zipf) (_loader_handlers : List ZANJLoaderHandler)
    (mode : ExternalsLoadingMode) : Except PyErr LoadedZANJS := do
  let metaM ← zipOpen zipf ZANJ_META
  let meta ← json_load_member metaM
  let mainM ← zipOpen zipf ZANJ_MAIN
  let main ← json_load_member mainM
  match mode with
  | .lazy =>
    Except.error (.typeError ("__init__ missing 1 required positional argument: loaded_zanj"))
  | .full => do
    let einfo ← pyGetKeyJ meta "externals_info"
    let kvs ← match einfo with
      | .obj kvs => Except.ok kvs
      | _ => Except.error (.attributeError ("items"))
    let exts ← mapExcept (fun kv => do
      let itJ ← pyGetKeyJ kv.2 "item_type"
      let it ← match itJ with
        | .str s => Except.ok s
        | _ => Except.error (.keyError ("item_type is not a string"))
      let mem ← zipOpen zipf kv.1
      let f ← match externalLoadFuncsLookup it with
        | some f => Except.ok f
        | none => Except.error (.keyError it)
      let o ← f mem
      Except.ok (kv.1, o)) kvs
    Except.ok ⟨meta, main, exts⟩

/-- `LoadedZANJ.__getitem__` (loading.py:223-225): delegate to the root
tree node, whose `_parent` is the archive itself (hence the archive's
externals dict). -/
def LoadedZANJ.getitem (lz : LoadedZANJS) (key : PyKey) : Except PyErr GetResult :=
  ZANJLoaderTreeNode.getitem ⟨lz._externals, lz._main⟩ key

/-- C5: accessing a proxy node with a key of the wrong kind for its
container — a string key on a sequence-backed node, or an integer index
on a mapping-backed node — fails with the key-type-mismatch error, for
every node (hence under every externals store, i.e. in both modes) and
every such key. -/
theorem c5_key_type_mismatch :
    (∀ (es : List (String × PyObj)) (xs : List JSONValue) (s : String),
      ZANJLoaderTreeNode.getitem ⟨es, .arr xs⟩ (.str s) = .error .keyTypeMismatch)
    ∧ (∀ (es : List (String × PyObj)) (kvs : List (String × JSONValue)) (i : Int),
      ZANJLoaderTreeNode.getitem ⟨es, .obj kvs⟩ (.int i) = .error .keyTypeMismatch) :=
  ⟨fun _ _ _ => rfl, fun _ _ _ => rfl⟩

/-- C10: iterating a mapping-backed proxy node yields exactly the raw keys
of the underlying dict (including a present `"$ref"` key — the result
depends only on the raw data, never on the externals store), its length
counts every entry, and dereferencing through the externals store happens
exactly when the `"$ref"` key is explicitly subscripted. -/
theorem c10_iter_raw_keys :
    (∀ (es : List (String × PyObj)) (kvs : List (String × JSONValue)),
      ZANJLoaderTreeNode.iterModel ⟨es, .obj kvs⟩ = .ok (kvs.map (fun kv => JSONValue.str kv.1)))
    ∧ (∀ (es : List (String × PyObj)) (kvs : List (String × JSONValue)),
      ZANJLoaderTreeNode.lenModel ⟨es, .obj kvs⟩ = .ok kvs.length)
    ∧ (∀ (es : List (String × PyObj)) (kvs : List (String × JSONValue)) (v : JSONValue),
      assocFind kvs "$ref" = some v →
      ZANJLoaderTreeNode.getitem ⟨es, .obj kvs⟩ (.str "$ref") =
        (externalsGet es v).map (wrapVal es)) := by
  refine ⟨fun _ _ => rfl, fun _ _ => rfl, fun es kvs v h => ?_⟩
  simp only [ZANJLoaderTreeNode.getitem, pyDictGet, h]
  cases externalsGet es v <;> rfl

/-- C10 witness: on a concrete mapping node whose `"$ref"` points at
external key `"k"`, subscripting `"$ref"` returns the stored external
value. -/
theorem c10_iter_raw_keys_witness :
    assocFind [("$ref", JSONValue.str "k")] "$ref" = some (JSONValue.str "k")
    ∧ ZANJLoaderTreeNode.getitem ⟨[("k", PyObj.json (.num 9))], .obj [("$ref", .str "k")]⟩
        (.str "$ref") = .ok (.leaf (.json (.num 9))) :=
  ⟨rfl,
   (c10_iter_raw_keys.2.2 [("k", PyObj.json (.num 9))] [("$ref", JSONValue.str "k")]
     (JSONValue.str "k") rfl).trans rfl⟩

/-- A tagged value (list-encoded array) sitting as a plain dict entry:
the input demonstrating that `ZANJLoaderTreeNode.__getitem__` never runs
fetched values through the loader handlers. -/
def c2Tag : JSONValue :=
  .obj [ ("__format__", .str "array_list_meta"), ("dtype", .str "int8"),
         ("shape", .arr [.num 1]), ("data", .arr [.num 7]) ]

/-- C2 (code bug): the proxy node returns the raw tagged mapping, merely
re-wrapped — the discriminator stays visible as an ordinary field — even
though the default handler chain accepts this value and would decode it
to the dense array `int8[1] = [7]`.  The class docstring ("applies
loaders to items") and the spec say the fetched value is resolved through
the handler registry; no handler is ever invoked by the code. -/
theorem c2_code_bug :
    ZANJLoaderTreeNode.getitem ⟨[], .obj [("x", c2Tag)]⟩ (.str "x") = .ok (.node ⟨[], c2Tag⟩)
    ∧ checkArrayListMeta c2Tag [] = true
    ∧ resolveHandlers DEFAULT_LOADER_HANDLERS_ZANJ ⟨[]⟩ c2Tag [] =
        .ok (.nparr ⟨⟨true, 1⟩, [1], [7]⟩) :=
  ⟨rfl, rfl, rfl⟩

/-- The archive of the C3 counterexample: the backing member
`"arr1.npy"` is present and well-formed. -/
def c3Zip : Zipf := [("arr1.npy", .npyDoc ⟨⟨true, 8⟩, [1], [5]⟩)]

/-- A lazy store declaring external key `"arr1"` of type `ndarray` over
that archive. -/
def c3Loader : LazyExternalLoaderS := ⟨c3Zip, [("arr1", "ndarray")]⟩

/-- C3 (code bug): `get("arr1")` on the lazy store raises `ValueError`
from `path, item_type = key` — the 4-character key string cannot unpack
into two names — although the backing member `"arr1.npy"` exists; the
member is never opened and no decode function ever runs. -/
theorem c3_code_bug :
    LazyExternalLoader.getitem c3Loader "arr1" =
      .error (.valueError ("values to unpack mismatch"))
    ∧ zipOpen c3Zip "arr1.npy" = .ok (.npyDoc ⟨⟨true, 8⟩, [1], [5]⟩) :=
  ⟨rfl, rfl⟩

/-- C9 (code bug): `get` with an undeclared key falls off the end of
`LazyExternalLoader.__getitem__` and silently returns `None` instead of
raising. -/
theorem c9_code_bug :
    LazyExternalLoader.getitem c3Loader "zzz" = .ok (.json .null) := rfl

/-- An archive with an empty externals table: metadata and main tree
present and well-formed. -/
def c1Zip : Zipf :=
  [ (ZANJ_META, .jsonDoc (.obj [("externals_info", .obj [])])),
    (ZANJ_MAIN, .jsonDoc (.obj [("a", .num 1)])) ]

/-- C1 (code bug): opening the same well-formed archive in the two modes
does not yield equal values at every reachable key path, because lazy
mode cannot open any archive at all: the `LazyExternalLoader` call at
loading.py:211-214 omits the constructor's required `loaded_zanj`
argument and raises `TypeError`, whereas full mode opens the archive and
serves the key `"a"`. -/
theorem c1_code_bug :
    LoadedZANJ.init c1Zip DEFAULT_LOADER_HANDLERS_ZANJ .lazy =
      .error (.typeError ("__init__ missing 1 required positional argument: loaded_zanj"))
    ∧ (LoadedZANJ.init c1Zip DEFAULT_LOADER_HANDLERS_ZANJ .full).map
        (fun lz => LoadedZANJ.getitem lz (.str "a")) =
      .ok (.ok (.leaf (.json (.num 1)))) :=
  ⟨rfl, rfl⟩

/-- Metadata declaring external key `"arr1"` of type `ndarray`. -/
def c4Meta : JSONValue :=
  .obj [("externals_info", .obj [("arr1", .obj [("item_type", .str "ndarray")])])]

/-- The C4 archive: `"arr1"` is declared but no member `"arr1.npy"`
exists. -/
def c4Zip : Zipf := [(ZANJ_META, .jsonDoc c4Meta), (ZANJ_MAIN, .jsonDoc (.obj []))]

/-- C4 (code bug): opening this broken archive in lazy mode does fail at
open time, but with `TypeError` from the argument-less constructor call,
not with the missing-external error; and even invoking
`LazyExternalLoader.__init__` directly fails with `AttributeError` at
the `val.item_type` access (loading.py:167) before the existence check
at loading.py:171-175 can run.  The backing member is indeed absent. -/
theorem c4_code_bug :
    LoadedZANJ.init c4Zip DEFAULT_LOADER_HANDLERS_ZANJ .lazy =
      .error (.typeError ("__init__ missing 1 required positional argument: loaded_zanj"))
    ∧ LazyExternalLoader.init c4Zip c4Meta = .error (.attributeError ("item_type"))
    ∧ zipOpen c4Zip "arr1.npy" = .error (.keyError ("arr1.npy")) :=
  ⟨rfl, rfl, rfl⟩

/-- C8: handler dispatch is first-match-wins over the registered order
(a handler preceded only by handlers whose predicates reject the value
resolves it, whatever comes later), and in the default ZANJ chain the
reference-token handler is registered first, so whenever its predicate
accepts a value, resolution uses it — ahead of both generic tagged-array
handlers. -/
theorem c8_first_match_wins :
    (∀ (pre post : List ZANJLoaderHandler) (h : ZANJLoaderHandler) (z : Zanj)
       (j : JSONValue) (p : ObjectPath),
      (∀ h2 ∈ pre, h2.check z j p = false) → h.check z j p = true →
      resolveHandlers (pre ++ h :: post) z j p = h.load z j p)
    ∧ DEFAULT_LOADER_HANDLERS_ZANJ.head? = some zanjExternalHandler
    ∧ (∀ (z : Zanj) (j : JSONValue) (p : ObjectPath),
      checkExternalFormat z j p = true →
      resolveHandlers DEFAULT_LOADER_HANDLERS_ZANJ z j p = loadExternalRef z j p) := by
  refine ⟨?_, rfl, ?_⟩
  · intro pre post h z j p hpre hh
    induction pre with
    | nil => simp [resolveHandlers, List.find?, hh]
    | cons a as ih =>
      have ha : a.check z j p = false := hpre a (by simp)
      have hrest : ∀ h2 ∈ as, h2.check z j p = false := fun x hx => hpre x (by simp [hx])
      simpa [resolveHandlers, List.find?_cons, ha] using ih hrest
  · intro z j p h
    simp [resolveHandlers, DEFAULT_LOADER_HANDLERS_ZANJ, List.find?_cons,
      zanjExternalHandler, h]

/-- The value and archive state of the C8 witness: a reference token
carrying external key `"k"`, with `"k"` bound in the externals store. -/
def c8Json : JSONValue :=
  .obj [("__format__", .str "external:ndarray"), ("key", .str "k")]

/-- The archive state of the C8 witness. -/
def c8Zanj : Zanj := ⟨[("k", PyObj.json (.num 5))]⟩

/-- C8 witness: on a concrete reference token the default chain resolves
through the reference-token handler, and moving it behind the two array
handlers (whose predicates reject the token) still selects it —
first-match-wins instantiated concretely. -/
theorem c8_first_match_wins_witness :
    checkExternalFormat c8Zanj c8Json [] = true
    ∧ resolveHandlers DEFAULT_LOADER_HANDLERS_ZANJ c8Zanj c8Json [] =
        loadExternalRef c8Zanj c8Json []
    ∧ resolveHandlers
        ((DEFAULT_LOADER_HANDLERS.map ZANJLoaderHandler.fromLoaderHandler) ++
          [zanjExternalHandler]) c8Zanj c8Json [] =
        zanjExternalHandler.load c8Zanj c8Json [] :=
  ⟨rfl,
   c8_first_match_wins.2.2 c8Zanj c8Json [] rfl,
   c8_first_match_wins.1 (DEFAULT_LOADER_HANDLERS.map ZANJLoaderHandler.fromLoaderHandler)
     [] zanjExternalHandler c8Zanj c8Json []
     (by
       intro h2 hh
       simp only [DEFAULT_LOADER_HANDLERS, List.map_cons, List.map_nil,
         List.mem_cons, List.not_mem_nil, or_false] at hh
       rcases hh with h | h <;> subst h <;> rfl)
     rfl⟩
lemma toLEBytes_length (k n : Nat) : (toLEBytes k n).length = k := by
  induction k generalizing n with
  | zero => rfl
  | succ k ih => simp [toLEBytes, ih]

lemma toLEBytes_lt (k n : Nat) : ∀ b ∈ toLEBytes k n, b < 256 := by
  induction k generalizing n with
  | zero => simp [toLEBytes]
  | succ k ih =>
    simp only [toLEBytes, List.mem_cons]
    rintro b (rfl | hb)
    · exact Nat.mod_lt _ (by norm_num)
    · exact ih (n / 256) b hb

lemma fromLEBytes_cons (b : Nat) (bs : List Nat) :
    fromLEBytes (b :: bs) = b + 256 * fromLEBytes bs := rfl

lemma fromLEBytes_toLEBytes (k n : Nat) :
    fromLEBytes (toLEBytes k n) = n % 256 ^ k := by
  induction k generalizing n with
  | zero => simp [toLEBytes, fromLEBytes, Nat.mod_one]
  | succ k ih =>
    rw [toLEBytes, fromLEBytes_cons, ih, pow_succ']
    exact Nat.mod_mul.symm

lemma pow256_eq (k : Nat) : 256 ^ k = 2 ^ (8 * k) := by
  rw [pow_mul]
  norm_num

/-- Serializing one in-range value to its raw bytes and reinterpreting
them in the same dtype is the identity. -/
lemma decodeChunk_encodeValue (d : Dtype) (hk : 0 < d.itemsize) (v : Int)
    (hv : inRangeB d v = true) : decodeChunk d (encodeValue d v) = v := by
  have hm : 1 ≤ dtypeBits d := by simp only [dtypeBits]; omega
  have hsplit : (2 : Int) ^ dtypeBits d = 2 * 2 ^ (dtypeBits d - 1) := by
    rw [← pow_succ']
    congr 1
    omega
  have hMpos : (0 : Int) < 2 ^ dtypeBits d := by positivity
  have hBpos : (0 : Int) < 2 ^ (dtypeBits d - 1) := by positivity
  have hemod_nonneg : 0 ≤ v % 2 ^ dtypeBits d := Int.emod_nonneg v (by positivity)
  have hemod_lt : v % 2 ^ dtypeBits d < 2 ^ dtypeBits d := Int.emod_lt_of_pos v hMpos
  have hfrom : fromLEBytes (toLEBytes d.itemsize ((v % 2 ^ dtypeBits d).toNat)) =
      (v % 2 ^ dtypeBits d).toNat := by
    rw [fromLEBytes_toLEBytes, pow256_eq]
    apply Nat.mod_eq_of_lt
    have hcast2 : ((v % 2 ^ dtypeBits d).toNat : Int) < ((2 ^ (8 * d.itemsize) : Nat) : Int) := by
      rw [Int.toNat_of_nonneg hemod_nonneg]
      push_cast
      simpa [dtypeBits] using hemod_lt
    exact_mod_cast hcast2
  have hcast : ((v % 2 ^ dtypeBits d).toNat : Int) = v % 2 ^ dtypeBits d :=
    Int.toNat_of_nonneg hemod_nonneg
  simp only [decodeChunk, encodeValue, hfrom]
  cases hd : d.signed with
  | false =>
    have hr : (0 : Int) ≤ v ∧ v < 2 ^ dtypeBits d := by
      simpa [inRangeB, hd] using hv
    have hemod : v % 2 ^ dtypeBits d = v := Int.emod_eq_of_lt hr.1 hr.2
    rw [if_neg (by simp [hd])]
    rw [hcast, hemod]
  | true =>
    have hr : -(2 ^ (dtypeBits d - 1)) ≤ v ∧ v < 2 ^ (dtypeBits d - 1) := by
      simpa [inRangeB, hd] using hv
    rcases le_or_lt 0 v with hv0 | hv0
    · have hemod : v % 2 ^ dtypeBits d = v :=
        Int.emod_eq_of_lt hv0 (by omega)
      have hlt : ¬ 2 ^ (dtypeBits d - 1) ≤ (v % 2 ^ dtypeBits d).toNat := by
        intro hcon
        have hcon2 : ((2 ^ (dtypeBits d - 1) : Nat) : Int) ≤ ((v % 2 ^ dtypeBits d).toNat : Int) :=
          Int.ofNat_le.mpr hcon
        rw [hcast, hemod] at hcon2
        push_cast at hcon2
        omega
      rw [if_neg (by intro hcon; exact hlt hcon.2)]
      rw [hcast, hemod]
    · have hemod : v % 2 ^ dtypeBits d = v + 2 ^ dtypeBits d := by
        have h1 : (v + 2 ^ dtypeBits d) % 2 ^ dtypeBits d = v % 2 ^ dtypeBits d := by
          conv_lhs => rw [show v + 2 ^ dtypeBits d = v + 2 ^ dtypeBits d * 1 by ring]
          rw [Int.add_mul_emod_self_left]
        have h2 : (v + 2 ^ dtypeBits d) % 2 ^ dtypeBits d = v + 2 ^ dtypeBits d :=
          Int.emod_eq_of_lt (by omega) (by omega)
        rw [← h1, h2]
      have hge : 2 ^ (dtypeBits d - 1) ≤ (v % 2 ^ dtypeBits d).toNat := by
        have hge2 : ((2 ^ (dtypeBits d - 1) : Nat) : Int) ≤ ((v % 2 ^ dtypeBits d).toNat : Int) := by
          rw [hcast, hemod]
          push_cast
          omega
        exact_mod_cast hge2
      rw [if_pos ⟨rfl, hge⟩]
      rw [hcast, hemod]
      omega

lemma chunksAux_cons (fuel k : Nat) (a : Nat) (rest : List Nat) :
    chunksAux (fuel + 1) k (a :: rest) =
      (a :: rest).take k :: chunksAux fuel k ((a :: rest).drop k) := rfl

/-- Chunking the concatenation of equal-length blocks recovers the
blocks, given enough fuel. -/
lemma chunksAux_flatten (k : Nat) (hk : 0 < k) (ls : List (List Nat)) :
    ∀ (fuel : Nat), (∀ l ∈ ls, l.length = k) →
      ls.flatten.length ≤ fuel → chunksAux fuel k ls.flatten = ls := by
  induction ls with
  | nil => intro fuel _ _; cases fuel <;> rfl
  | cons l ls ih =>
    intro fuel hlen hfuel
    have hl : l.length = k := hlen l (by simp)
    obtain ⟨a, l2, rfl⟩ : ∃ a l2, l = a :: l2 := by
      cases l with
      | nil => simp at hl; omega
      | cons a l2 => exact ⟨a, l2, rfl⟩
    simp only [List.flatten_cons, List.length_append] at hfuel
    have hfl : (a :: l2).length + ls.flatten.length ≤ fuel := by
      simpa using hfuel
    cases fuel with
    | zero => simp only [List.length_cons] at hfl; omega
    | succ f =>
      have hrest : ls.flatten.length ≤ f := by
        simp only [List.length_cons] at hfl
        omega
      rw [List.flatten_cons, List.cons_append, chunksAux_cons, ← List.cons_append,
        List.take_left' hl, List.drop_left' hl]
      rw [ih f (fun x hx => hlen x (by simp [hx])) hrest]

lemma encode_flatten_length (d : Dtype) (data : List Int) :
    ((data.map (encodeValue d)).flatten).length = d.itemsize * data.length := by
  induction data with
  | nil => simp
  | cons v vs ih =>
    simp only [List.map_cons, List.flatten_cons, List.length_append, ih]
    rw [encodeValue, toLEBytes_length]
    simp only [List.length_cons, Nat.mul_succ]
    omega

lemma map_decode_encode (d : Dtype) (hk : 0 < d.itemsize) (data : List Int)
    (hv : ∀ v ∈ data, inRangeB d v = true) :
    (data.map (encodeValue d)).map (decodeChunk d) = data := by
  induction data with
  | nil => rfl
  | cons v vs ih =>
    simp only [List.map_cons]
    rw [decodeChunk_encodeValue d hk v (hv v (by simp)),
      ih (fun x hx => hv x (by simp [hx]))]

/-- `np.frombuffer` inverts the per-value byte serialization of a list of
in-range values. -/
lemma npFrombuffer_encode (d : Dtype) (hk : 0 < d.itemsize) (data : List Int)
    (hv : ∀ v ∈ data, inRangeB d v = true) :
    npFrombuffer d ((data.map (encodeValue d)).flatten) = .ok data := by
  have hlen := encode_flatten_length d data
  rw [npFrombuffer, if_neg (by omega), if_pos (by rw [hlen]; exact Nat.mul_mod_right _ _)]
  rw [npChunks, chunksAux_flatten d.itemsize hk (data.map (encodeValue d)) _
    (fun l hl => by
      obtain ⟨v, _hv2, rfl⟩ := List.mem_map.mp hl
      rw [encodeValue, toLEBytes_length])
    (le_refl _)]
  rw [map_decode_encode d hk data hv]

lemma encodeValue_bytes_lt (d : Dtype) (v : Int) : ∀ b ∈ encodeValue d v, b < 256 := by
  rw [encodeValue]
  exact toLEBytes_lt _ _

lemma hexVal_hexChar (n : Nat) (h : n < 16) : hexVal (hexChar n) = some n := by
  interval_cases n <;> rfl

/-- `bytes.fromhex` inverts `bytes.hex` on byte lists. -/
lemma bytesFromHex_encode (bs : List Nat) (h : ∀ b ∈ bs, b < 256) :
    bytesFromHex ((bs.map byteToHexChars).flatten) = .ok bs := by
  induction bs with
  | nil => rfl
  | cons b bs ih =>
    have hb : b < 256 := h b (by simp)
    have h1 : b / 16 < 16 := by omega
    have h2 : b % 16 < 16 := by omega
    simp only [List.map_cons, List.flatten_cons, byteToHexChars, List.cons_append,
      List.nil_append]
    rw [bytesFromHex, hexVal_hexChar _ h1, hexVal_hexChar _ h2,
      ih (fun x hx => h x (by simp [hx]))]
    simp only [Except.map]
    rw [Nat.div_add_mod]

@[simp] lemma pyBind_ok (a : α) (f : α → Except PyErr β) :
    (Except.ok a : Except PyErr α) >>= f = f a := rfl

@[simp] lemma pyBind_error (e : PyErr) (f : α → Except PyErr β) :
    (Except.error e : Except PyErr α) >>= f = .error e := rfl

@[simp] lemma pyPure_eq (a : α) : (pure a : Except PyErr α) = .ok a := rfl

@[simp] lemma pyMap_ok (a : α) (f : α → β) :
    (Except.ok a : Except PyErr α).map f = .ok (f a) := rfl

lemma jsonToIntList_map (data : List Int) :
    jsonToIntList (.arr (data.map .num)) = .ok data := by
  induction data with
  | nil => rfl
  | cons v vs ih =>
    simp only [jsonToIntList, List.map_cons, mapExcept] at ih ⊢
    rw [ih]
    rfl

lemma jsonToShape_map (shape : List Nat) :
    jsonToShape (.arr (shape.map (fun n => .num (Int.ofNat n)))) = .ok shape := by
  induction shape with
  | nil => rfl
  | cons n ns ih =>
    simp only [jsonToShape, List.map_cons, mapExcept] at ih ⊢
    rw [if_pos (show (0 : Int) ≤ Int.ofNat n from Int.ofNat_le.mpr (Nat.zero_le n)), ih]
    rfl

lemma assocFind_mem {α : Type} (l : List (String × α)) (k : String) (v : α) :
    assocFind l k = some v → (k, v) ∈ l := by
  induction l with
  | nil => intro h; simp [assocFind] at h
  | cons p rest ih =>
    obtain ⟨k2, v2⟩ := p
    intro h
    simp only [assocFind] at h
    by_cases hk : k2 = k
    · rw [if_pos hk] at h
      injection h with h2
      subst hk
      subst h2
      exact List.mem_cons_self _ _
    · rw [if_neg hk] at h
      exact List.mem_cons_of_mem _ (ih h)

lemma dtype_itemsize_pos (ds : String) (d : Dtype) (h : dtypeFromString ds = some d) :
    0 < d.itemsize := by
  have hm := assocFind_mem dtypeTable ds d h
  simp only [dtypeTable, List.mem_cons, List.not_mem_nil, or_false, Prod.mk.injEq] at hm
  rcases hm with ⟨_, rfl⟩ | ⟨_, rfl⟩ | ⟨_, rfl⟩ | ⟨_, rfl⟩ |
    ⟨_, rfl⟩ | ⟨_, rfl⟩ | ⟨_, rfl⟩ | ⟨_, rfl⟩ <;> norm_num

/-- A well-formed list-encoded tagged array decodes to the array holding
its dtype, shape, and data. -/
lemma loadArrayListMeta_mk (ds : String) (d : Dtype) (shape : List Nat) (data : List Int)
    (hd : dtypeFromString ds = some d)
    (hr : data.all (inRangeB d) = true)
    (hs : shape.prod = data.length) :
    loadArrayListMeta (mkArrayListItem ds shape data) = .ok ⟨d, shape, data⟩ := by
  have hdata : pyGetKeyJ (mkArrayListItem ds shape data) "data" =
      .ok (.arr (data.map .num)) := rfl
  have hdt : pyGetKeyJ (mkArrayListItem ds shape data) "dtype" = .ok (.str ds) := rfl
  have hsh : pyGetKeyJ (mkArrayListItem ds shape data) "shape" =
      .ok (.arr (shape.map (fun n => .num (Int.ofNat n)))) := rfl
  simp only [loadArrayListMeta, hdata, hdt, hsh, hd, pyBind_ok, jsonToIntList_map,
    jsonToShape_map, npArrayCast, hr, if_true, npReshape, hs, if_pos]

/-- A well-formed hex-encoded tagged array decodes to the array holding
its dtype, shape, and data. -/
lemma loadArrayHexMeta_mk (ds : String) (d : Dtype) (shape : List Nat) (data : List Int)
    (hd : dtypeFromString ds = some d)
    (hk : 0 < d.itemsize)
    (hr : ∀ v ∈ data, inRangeB d v = true)
    (hs : shape.prod = data.length) :
    loadArrayHexMeta (mkArrayHexItem ds d shape data) = .ok ⟨d, shape, data⟩ := by
  have hdata : pyGetKeyJ (mkArrayHexItem ds d shape data) "data" =
      .ok (.str (bytesToHexString ((data.map (encodeValue d)).flatten))) := rfl
  have hdt : pyGetKeyJ (mkArrayHexItem ds d shape data) "dtype" = .ok (.str ds) := rfl
  have hsh : pyGetKeyJ (mkArrayHexItem ds d shape data) "shape" =
      .ok (.arr (shape.map (fun n => .num (Int.ofNat n)))) := rfl
  have hbytes : bytesFromHex
      ((bytesToHexString ((data.map (encodeValue d)).flatten)).data) =
      .ok ((data.map (encodeValue d)).flatten) := by
    have hdchars : (bytesToHexString ((data.map (encodeValue d)).flatten)).data =
        ((((data.map (encodeValue d)).flatten)).map byteToHexChars).flatten := rfl
    rw [hdchars]
    apply bytesFromHex_encode
    intro b hb
    obtain ⟨l, hl, hbl⟩ := List.mem_flatten.mp hb
    obtain ⟨v, _hv2, rfl⟩ := List.mem_map.mp hl
    exact encodeValue_bytes_lt d v b hbl
  simp only [loadArrayHexMeta, hdata, hdt, hsh, hd, pyBind_ok, hbytes,
    npFrombuffer_encode d hk data hr, jsonToShape_map, npReshape, hs, if_pos]

/-- C6: for every integer dtype, shape, and flat in-range data, the
list-encoded tagged array and the hex-encoded tagged array carrying the
same logical data decode, via their respective default handlers, to equal
arrays — both to the dense array with that dtype, shape, and data. -/
theorem c6_list_hex_equal (ds : String) (d : Dtype) (shape : List Nat) (data : List Int)
    (hd : dtypeFromString ds = some d)
    (hr : data.all (inRangeB d) = true)
    (hs : shape.prod = data.length) :
    loadArrayListMeta (mkArrayListItem ds shape data) = .ok ⟨d, shape, data⟩
    ∧ loadArrayHexMeta (mkArrayHexItem ds d shape data) = .ok ⟨d, shape, data⟩ := by
  have hk := dtype_itemsize_pos ds d hd
  have hr2 : ∀ v ∈ data, inRangeB d v = true := by
    intro v hv
    exact List.all_eq_true.mp hr v hv
  exact ⟨loadArrayListMeta_mk ds d shape data hd hr hs,
    loadArrayHexMeta_mk ds d shape data hd hk hr2 hs⟩

/-- C6 witness: the `int16` array of shape `[2]` and data `[1, -1]`
decodes identically from its list encoding and from its hex encoding. -/
theorem c6_list_hex_equal_witness :
    dtypeFromString "int16" = some ⟨true, 2⟩
    ∧ ([1, -1] : List Int).all (inRangeB ⟨true, 2⟩) = true
    ∧ ([2] : List Nat).prod = ([1, -1] : List Int).length
    ∧ loadArrayListMeta (mkArrayListItem "int16" [2] [1, -1]) =
        .ok ⟨⟨true, 2⟩, [2], [1, -1]⟩
    ∧ loadArrayHexMeta (mkArrayHexItem "int16" ⟨true, 2⟩ [2] [1, -1]) =
        .ok ⟨⟨true, 2⟩, [2], [1, -1]⟩ :=
  ⟨rfl, by decide, rfl,
   (c6_list_hex_equal "int16" ⟨true, 2⟩ [2] [1, -1] rfl (by decide) rfl).1,
   (c6_list_hex_equal "int16" ⟨true, 2⟩ [2] [1, -1] rfl (by decide) rfl).2⟩

lemma stripWSBoth_append_newline (l : List Char) :
    stripWSBoth (l ++ ['\n']) = stripWSBoth l := by
  simp only [stripWSBoth, List.dropWhile_append]
  by_cases h : (l.dropWhile isWS).isEmpty
  · rw [if_pos h]
    have h2 : l.dropWhile isWS = [] := by
      cases hd : l.dropWhile isWS with
      | nil => rfl
      | cons a as => rw [hd] at h; simp at h
    rw [h2]
    rfl
  · rw [if_neg h]
    rw [List.reverse_append]
    have h3 : (['\n'] : List Char).reverse = ['\n'] := rfl
    rw [h3, List.cons_append, List.nil_append,
      List.dropWhile_cons_of_pos (by rfl : isWS '\n' = true)]

lemma json_loads_append_newline (l : List Char) :
    json_loads (l ++ ['\n']) = json_loads l := by
  simp only [json_loads, stripWSBoth_append_newline]

lemma fileLinesAux_no_newline (l : List Char) (h : Char.ofNat 10 ∉ l) :
    ∀ (acc rest : List Char),
      fileLinesAux acc (l ++ '\n' :: rest) =
        ((acc.reverse ++ l) ++ ['\n']) :: fileLinesAux [] rest := by
  induction l with
  | nil =>
    intro acc rest
    simp [fileLinesAux]
  | cons c cs ih =>
    intro acc rest
    have hc : ¬ c = '\n' := by
      intro hh
      apply h
      simp [hh]
    simp only [List.cons_append, fileLinesAux, if_neg hc, List.append_eq]
    rw [ih (fun hm => h (List.mem_cons_of_mem c hm)) (c :: acc) rest]
    simp

lemma fileLines_joined (lines : List (List Char)) (h : ∀ l ∈ lines, Char.ofNat 10 ∉ l) :
    fileLines ((lines.map (fun l => l ++ ['\n'])).flatten) =
      lines.map (fun l => l ++ ['\n']) := by
  induction lines with
  | nil => rfl
  | cons l ls ih =>
    simp only [List.map_cons, List.flatten_cons, List.append_assoc, List.cons_append,
      List.nil_append]
    rw [fileLines, fileLinesAux_no_newline l (h l (by simp)) [] _]
    rw [List.reverse_nil, List.nil_append]
    rw [show fileLinesAux ([] : List Char) ((ls.map (fun l => l ++ ['\n'])).flatten) =
      fileLines ((ls.map (fun l => l ++ ['\n'])).flatten) from rfl]
    rw [ih (fun x hx => h x (by simp [hx]))]

lemma mapExcept_loads_newline (lines : List (List Char)) :
    mapExcept json_loads (lines.map (fun l => l ++ ['\n'])) =
      mapExcept json_loads lines := by
  induction lines with
  | nil => rfl
  | cons l ls ih =>
    simp only [List.map_cons, mapExcept, json_loads_append_newline, ih]

lemma mapExcept_forall2 (f : α → Except PyErr β) (l : List α) (vs : List β)
    (h : List.Forall₂ (fun a b => f a = .ok b) l vs) : mapExcept f l = .ok vs := by
  induction h with
  | nil => rfl
  | cons hab _htl ih => simp only [mapExcept, hab, ih, pyMap_ok]

/-- C7: a member consisting of `n` valid JSON lines decodes to an ordered,
fully materialized sequence of exactly `n` records whose `i`-th element is
the result of independently JSON-parsing the `i`-th line. -/
theorem c7_jsonl_lines (lines : List (List Char)) (vs : List JSONValue)
    (hnl : ∀ l ∈ lines, Char.ofNat 10 ∉ l)
    (hp : List.Forall₂ (fun l v => json_loads l = .ok v) lines vs) :
    load_jsonl ((lines.map (fun l => l ++ ['\n'])).flatten) = .ok vs
    ∧ vs.length = lines.length
    ∧ ∀ (i : Nat) (h1 : i < lines.length) (h2 : i < vs.length),
        json_loads (lines.get ⟨i, h1⟩) = .ok (vs.get ⟨i, h2⟩) := by
  refine ⟨?_, ?_, ?_⟩
  · rw [load_jsonl, fileLines_joined lines hnl, mapExcept_loads_newline]
    exact mapExcept_forall2 _ _ _ hp
  · exact hp.length_eq.symm
  · intro i h1 h2
    exact (List.forall₂_iff_get.mp hp).2 i h1 h2

/-- C7 witness: the three-line stream `1`, `[2,true]`, `null` decodes to
the three independently parsed records, in order. -/
theorem c7_jsonl_lines_witness :
    (∀ l ∈ [("1").data, ("[2,true]").data, ("null").data], Char.ofNat 10 ∉ l)
    ∧ load_jsonl ((([("1").data, ("[2,true]").data, ("null").data]).map
        (fun l => l ++ ['\n'])).flatten) =
      .ok [JSONValue.num 1, .arr [.num 2, .bool true], .null]
    ∧ ([JSONValue.num 1, .arr [.num 2, .bool true], .null] : List JSONValue).length =
      ([("1").data, ("[2,true]").data, ("null").data] : List (List Char)).length :=
  ⟨by decide,
   (c7_jsonl_lines [("1").data, ("[2,true]").data, ("null").data]
     [JSONValue.num 1, .arr [.num 2, .bool true], .null] (by decide)
     (List.Forall₂.cons rfl (List.Forall₂.cons rfl
       (List.Forall₂.cons rfl List.Forall₂.nil)))).1,
   (c7_jsonl_lines [("1").data, ("[2,true]").data, ("null").data]
     [JSONValue.num 1, .arr [.num 2, .bool true], .null] (by decide)
     (List.Forall₂.cons rfl (List.Forall₂.cons rfl
       (List.Forall₂.cons rfl List.Forall₂.nil)))).2.1⟩
